import Mathlib

/-!
Shallow embedding of the hoyo-daily scripts (src/daily.py, src/redeem.py,
src/utils.py).  Network calls and exceptions of the genshin client are
modelled by explicit environment records enumerating every possible result
of each remote call; Python strings are modelled by Lean `String`,
Python sets by `Finset String`, dictionaries by functions.
-/

namespace HoyoDaily

/-! ## Data structures (src/utils.py, dataclasses) -/

/-- Embeds `CookieInfo` from src/utils.py: an account label plus an opaque
credential string. -/
structure CookieInfo where
  env_name : String := ""
  cookies : String := ""
deriving Repr, DecidableEq

/-- Embeds the `DailyInfo` dataclass from src/utils.py with its field
defaults. -/
structure DailyInfo where
  uid : String := "❓"
  level : String := "❓"
  name : String := "❓"
  server : String := "❓"
  status : String := "❌"
  check_in_count : String := "❓"
  reward : String := "❓"
  success : Bool := false
  env_name : String := "❓"
deriving Repr, DecidableEq

/-- Embeds the `RedeemInfo` dataclass from src/utils.py with its field
defaults. -/
structure RedeemInfo where
  uid : String := "❓"
  level : String := "❓"
  name : String := "❓"
  server : String := "❓"
  code : String := "❓"
  status : String := "❌"
  success : Bool := false
  env_name : String := "❓"
deriving Repr, DecidableEq

/-! ## Helper functions (src/utils.py) -/

/-- Embeds `censor_uid` from src/utils.py: `s[:-6] + "■■■■■" + s[-1]` when
`len(s) >= 6`, else `s` unchanged.  The Python slice `s[:-6]` is the first
`len - 6` characters and `s[-1]` is the last character. -/
def censor_uid (s : String) : String :=
  if 6 ≤ s.length then
    String.mk (s.data.take (s.data.length - 6)
      ++ '■' :: '■' :: '■' :: '■' :: '■' :: s.data.drop (s.data.length - 1))
  else s

/-- Embeds `cookie.env_name.split("_", 1)` followed by
`parts[1] if len(parts) > 1 else cookie.env_name`, used in both
`DailyClaimer.claim` (src/daily.py) and `redeem_process` (src/redeem.py):
the part after the first underscore, or the whole name if there is none. -/
def display_of (envName : String) : String :=
  match envName.splitOn "_" with
  | [] => envName
  | [_] => envName
  | _ :: rest => String.intercalate "_" rest

/-- Python `\w` over the ASCII range: letters, digits and underscore
(`format_name` in src/utils.py uses `\W`, its complement). -/
def isWordChar (c : Char) : Bool := c.isAlphanum || c == '_'

/-- Handles positions after the first character for the substitution
`re.sub(r"(?<!^)\W+(?!$)", "_", name)` of `format_name` (src/utils.py).
The first explicit argument carries the pending non-word run as
(length so far, last character seen): a run that ends before the end of
the string is replaced by one underscore; a run that reaches the end of
the string keeps its final character (the lookahead `(?!$)` forces the
greedy `\W+` to stop one short), and a single trailing non-word
character is kept whole. -/
def subNonWordGo : Option (Nat × Char) → List Char → List Char
  | none, [] => []
  | some (n, lc), [] => if 2 ≤ n then ['_', lc] else [lc]
  | none, c :: rest =>
      if isWordChar c then c :: subNonWordGo none rest
      else subNonWordGo (some (1, c)) rest
  | some (n, _), c :: rest =>
      if isWordChar c then '_' :: c :: subNonWordGo none rest
      else subNonWordGo (some (n + 1, c)) rest

/-- Embeds `re.sub(r"(?<!^)\W+(?!$)", "_", name)` from `format_name`
(src/utils.py).  The lookbehind `(?<!^)` means a match can never start at
position 0, so the first character is always emitted unchanged. -/
def subNonWord : List Char → List Char
  | [] => []
  | c :: rest => c :: subNonWordGo none rest

/-- Embeds `format_name` from src/utils.py: replace interior non-word runs
with `_`, then upper-case. -/
def format_name (s : String) : String :=
  String.mk ((subNonWord s.data).map Char.toUpper)

/-! ## Account-store fetch (src/utils.py, `get_cookies_from_api`) -/

/-- Embeds one element of the API response `data` array.  `item.get(key,
default)` on a possibly-missing JSON field is modelled by `Option`. -/
structure ApiItem where
  name : Option String := none
  account_id : Option Int := none
  cookie_token : Option String := none
deriving Repr, DecidableEq

/-- Embeds `str(item.get("account_id", ""))`: a missing field gives
`str("") = ""`, a present number `n` gives `str(n)`. -/
def itemAccId (it : ApiItem) : String :=
  match it.account_id with
  | none => ""
  | some n => toString n

/-- Embeds the per-item construction of `get_cookies_from_api`
(src/utils.py lines 172-192), for a 1-based index `idx`: build the label
`ACC{idx}_{format_name(name)}`, then skip the item (`continue`) when
either `acc_id` or `cookie_token` is empty. -/
def buildCookie (idx : Nat) (item : ApiItem) : Option CookieInfo :=
  let raw_name := item.name.getD "Unknown"
  let safe_name := format_name raw_name
  let env_name := "ACC" ++ toString idx ++ "_" ++ safe_name
  let acc_id := itemAccId item
  let cookie_token := item.cookie_token.getD ""
  if acc_id = "" ∨ cookie_token = "" then none
  else some { env_name := env_name,
              cookies := "account_id_v2=" ++ acc_id ++ "; cookie_token_v2=" ++ cookie_token }

/-- Embeds the successful-response path of `get_cookies_from_api`
(src/utils.py): enumerate the items from 1, build each cookie, skip the
incomplete ones, and return the survivors sorted by `env_name`. -/
def get_cookies_from_api (data : List ApiItem) : List CookieInfo :=
  ((data.enum.map fun p => buildCookie (p.1 + 1) p.2).filterMap id).mergeSort
    (fun a b => decide (a.env_name ≤ b.env_name))

/-! ## Dedup ledger (src/utils.py, `get_used_codes` / `update_used_codes`) -/

/-- Embeds `GAME_MAP` from src/utils.py, as (path key, game key) pairs. -/
def GAME_MAP : List (String × String) :=
  [("genshin", "gi"), ("starrail", "sr"), ("zzz", "zz")]

/-- Ledger storage: the lines of `used/{path}.txt` per path key; a missing
file is the empty line list. -/
def LedgerFiles : Type := String → List String

/-- Embeds `get_used_codes` from src/utils.py: for each game key, read the
lines of the matching path's file as a set (membership is the only
query). -/
def get_used_codes (files : LedgerFiles) (game_key : String) : Finset String :=
  match GAME_MAP.find? (fun p => p.2 == game_key) with
  | some p => (files p.1).toFinset
  | none => ∅

/-- Embeds `update_used_codes` from src/utils.py: map the game key back to
its path key (no-op when unknown) and append one line per code to that
file. -/
def update_used_codes (files : LedgerFiles) (game_key : String)
    (codes : List String) : LedgerFiles :=
  match GAME_MAP.find? (fun p => p.2 == game_key) with
  | none => files
  | some p => fun path => if path = p.1 then files path ++ codes else files path

/-! ## Work-item construction (src/redeem.py, `main` lines 104-134) -/

/-- Game keys of `codes_map` in src/redeem.py: `gi`, `sr`, `zz`. -/
inductive GKey where
  | gi
  | sr
  | zz
deriving Repr, DecidableEq

/-- Embeds the parsed CLI arguments of src/redeem.py: the `--auto` and
`--force` flags and the explicit per-game code lists. -/
structure RedeemArgs where
  auto : Bool := false
  force : Bool := false
  gi : List String := []
  sr : List String := []
  zz : List String := []
deriving Repr, DecidableEq

/-- Explicit codes supplied on the command line for one game key. -/
def RedeemArgs.explicitCodes (args : RedeemArgs) : GKey → List String
  | .gi => args.gi
  | .sr => args.sr
  | .zz => args.zz

/-- Embeds the `codes_map` construction of `main` in src/redeem.py:
start from the explicit CLI codes as a set; in `--auto` mode take `used`
to be empty when `--force` is given and the ledger contents otherwise,
then add `set(active[k]) - used[k]`. -/
def build_codes (args : RedeemArgs) (active : GKey → List String)
    (ledger : GKey → Finset String) (k : GKey) : Finset String :=
  let explicitSet := (args.explicitCodes k).toFinset
  if args.auto then
    let used := if args.force then (∅ : Finset String) else ledger k
    explicitSet ∪ ((active k).toFinset \ used)
  else explicitSet

/-! ## Redeem task (src/redeem.py, `redeem_process` / `process_game`) -/

/-- Target games of the genshin client, as used by both scripts. -/
inductive Game where
  | genshin
  | starrail
  | zzz
deriving Repr, DecidableEq

/-- Embeds one element of `client.get_game_accounts()`: the in-game
profile with its game and uid. -/
structure GameAccount where
  game : Game
  uid : Nat
deriving Repr, DecidableEq

/-- Result of one remote call that either returns a value or raises some
exception caught by the enclosing `except Exception` block. -/
inductive CallResult (α : Type) where
  | ok : α → CallResult α
  | exn : CallResult α
deriving Repr, DecidableEq

/-- Possible results of `client.redeem_code` as distinguished by the
`except` ladder in `redeem_process` (src/redeem.py lines 40-51):
success, `RedemptionClaimed`, `RedemptionInvalid`, `RedemptionCooldown`,
any other `RedemptionException`, or a non-redemption exception that
escapes to the outer handler. -/
inductive RedeemCall where
  | ok
  | claimed
  | invalid
  | cooldown
  | redemptionExn
  | otherExn
deriving Repr, DecidableEq

/-- Environment of one `redeem_process` task: the outcome of each remote
call it may perform. `clientOk` is whether `create_genshin_client`
returned a client (that factory catches every exception itself and
returns `(None, err)` on failure). -/
structure RedeemEnv where
  clientOk : Bool
  accountsResult : CallResult (List GameAccount)
  redeemResult : RedeemCall
deriving Repr

/-- Embeds `redeem_process` from src/redeem.py (minus the semaphore gate,
modelled separately as a transition system): every execution path of the
Python coroutine, including each exception path, and the `RedeemInfo` it
returns there.  Note the Cookie Err path uses the raw `cookie.env_name`
while all later paths use the display name. -/
def redeem_process (env : RedeemEnv) (cookie : CookieInfo) (game : Game)
    (code : String) : RedeemInfo :=
  if !env.clientOk then
    { env_name := cookie.env_name, code := code, status := "Cookie Err" }
  else
    let display_name := display_of cookie.env_name
    match env.accountsResult with
    | .exn => { env_name := display_name, code := code, status := "ERR" }
    | .ok accs =>
      match accs.find? (fun a => a.game == game) with
      | none => { env_name := display_name, code := code, status := "No Game" }
      | some target =>
        match env.redeemResult with
        | .otherExn => { env_name := display_name, code := code, status := "ERR" }
        | r =>
          let status := match r with
            | .ok => "✅"
            | .claimed => "🟡"
            | .invalid => "☠"
            | .cooldown => "⏱"
            | _ => "❌"
          { uid := censor_uid (toString target.uid), code := code,
            status := status, success := (status == "✅"),
            env_name := display_name }

/-- Embeds the result collection of `process_game` (src/redeem.py lines
68-84): for each code in order, one `redeem_process` outcome per cookie,
all extended into one list.  The per-pair environment is supplied by
`env`. -/
def process_game (env : String → CookieInfo → RedeemEnv)
    (cookies : List CookieInfo) (game : Game) (codes : List String) :
    List RedeemInfo :=
  (codes.map fun code =>
    cookies.map fun cookie => redeem_process (env code cookie) cookie game code).flatten

/-- Events of the `process_game` loop relevant to pacing: one batch
(`asyncio.gather` over all cookies) per code, and the `asyncio.sleep`
calls. -/
inductive PGEvent where
  | batch : String → PGEvent
  | sleep : Nat → PGEvent
deriving Repr, DecidableEq

/-- Embeds the control flow of the `process_game` loop (src/redeem.py
lines 72-83) as an event trace: for each code, run the batch, then — the
test is `if len(codes) > 1`, regardless of position — sleep 5 seconds. -/
def process_game_events (codes : List String) : List PGEvent :=
  (codes.map fun code =>
    PGEvent.batch code :: (if 1 < codes.length then [PGEvent.sleep 5] else [])).flatten

/-- Number of sleep events in a trace. -/
def countSleeps (events : List PGEvent) : Nat :=
  events.countP (fun e => match e with | .sleep _ => true | _ => false)

/-! ## Daily claim task (src/daily.py, `DailyClaimer.claim`) -/

/-- Embeds one element of `client.get_monthly_rewards()`. -/
structure Reward where
  name : String
  amount : Nat
deriving Repr, DecidableEq

/-- Possible results of `client.claim_daily_reward` as distinguished by
the `except` ladder in `DailyClaimer.claim` (src/daily.py lines 43-54):
success, `AlreadyClaimed`, any other `GenshinException` carrying its
retcode, or a non-genshin exception caught by the outer handler. -/
inductive ClaimCall where
  | ok
  | already
  | genshinExn : Int → ClaimCall
  | otherExn
deriving Repr, DecidableEq

/-- Environment of one `DailyClaimer.claim` task: the outcome of each
remote call it may perform, plus the day count `get_days_of_month`
returns. -/
structure DailyEnv where
  clientOk : Bool
  claimResult : ClaimCall
  rewardInfoResult : CallResult Nat
  monthlyRewardsResult : CallResult (List Reward)
  gameAccountsResult : CallResult (List GameAccount)
  daysOfMonth : Nat
deriving Repr

/-- Python list indexing `l[i]` with a possibly negative index: negative
indices count from the end; out of range raises `IndexError` (`none`). -/
def pyIndex {α : Type} (l : List α) (i : Int) : Option α :=
  if 0 ≤ i then l.get? i.toNat
  else if (-i).toNat ≤ l.length then l.get? (l.length - (-i).toNat)
  else none

/-- Embeds `DailyClaimer.claim` from src/daily.py: every execution path of
the coroutine and the `DailyInfo` it returns there.  `cache` is the
claimer's `_monthly_rewards` list at the moment this task reads it (the
claimer instance is shared across the accounts of one game, so the cache
is quantified over rather than threaded).  An exception anywhere inside
the outer `try` overwrites the status with `ERR` but keeps the fields
already assigned. -/
def DailyClaimer.claim (env : DailyEnv) (cache : List Reward)
    (cookie : CookieInfo) (game : Game) : DailyInfo :=
  let display_name := display_of cookie.env_name
  let info0 : DailyInfo := { env_name := display_name }
  if !env.clientOk then { info0 with status := "cookie_err" }
  else
    match env.claimResult with
    | .otherExn => { info0 with status := "ERR" }
    | .genshinExn retcode =>
        if retcode = -10002 then { info0 with status := "no_account" }
        else { info0 with status := "❌" }
    | r =>
      let info1 := { info0 with status := if r == ClaimCall.ok then "✅" else "🟡" }
      match env.rewardInfoResult with
      | .exn => { info1 with status := "ERR" }
      | .ok day =>
        match (if cache.isEmpty then env.monthlyRewardsResult else .ok cache) with
        | .exn => { info1 with status := "ERR" }
        | .ok monthly =>
          match pyIndex monthly ((day : Int) - 1) with
          | none => { info1 with status := "ERR" }
          | some reward =>
            let info2 := { info1 with
              reward := reward.name ++ " x" ++ toString reward.amount,
              check_in_count := toString day ++ " / " ++ toString env.daysOfMonth }
            match env.gameAccountsResult with
            | .exn => { info2 with status := "ERR" }
            | .ok accs =>
              match accs.find? (fun a => a.game == game) with
              | some target =>
                  { info2 with uid := censor_uid (toString target.uid), success := true }
              | none => { info2 with uid := "Unknown", success := true }

/-- Embeds the task creation of `main` in src/daily.py (lines 118-123):
one `claimer.claim(c, lang)` task per cookie for one game, gathered into
the game's result list. -/
def daily_game_results (env : CookieInfo → DailyEnv)
    (cache : CookieInfo → List Reward) (cookies : List CookieInfo)
    (game : Game) : List DailyInfo :=
  cookies.map fun c => DailyClaimer.claim (env c) (cache c) c game

/-! ## Webhook chunker (`send_chunked_webhook`, identical in both scripts) -/

/-- Loop of `send_chunked_webhook` (src/daily.py lines 86-101, src/redeem.py
lines 87-99) as a pure function from the remaining lines and the current
buffer to the list of messages handed to `send_discord_embed`.  When the
buffer plus the next line would pass `MAX_LENGTH = 1900` the buffer is
closed and flushed and the line starts a fresh buffer; at the end the
buffer is flushed when it holds more than the 4-character opening fence. -/
def chunkLoop : List String → String → List String
  | [], cur => if 4 < cur.length then [cur ++ "```"] else []
  | line :: rest, cur =>
      if 1900 < cur.length + line.length then
        (cur ++ "```") :: chunkLoop rest ("```\n" ++ line ++ "\n")
      else
        chunkLoop rest (cur ++ line ++ "\n")

/-- Embeds `send_chunked_webhook`: the sequence of messages emitted to the
webhook sink for a given list of report lines. -/
def send_chunked_webhook (lines : List String) : List String :=
  chunkLoop lines "```\n"

/-! ## Webhook filtering and aggregation (the report loops of both mains) -/

/-- Accumulator of the per-game report loop: success lines, error lines,
the cross-game cookie-error set, and (daily only) the `has_valid_info`
flag. -/
structure Buckets where
  success_lines : List String
  error_lines : List String
  cookie_errs : Finset String
  has_valid : Bool

/-- Embeds one iteration of the webhook-filter loop of `main` in
src/daily.py (lines 148-172): skip `no_account`; collect cookie errors
into the global set; split the rest into success and error lines. -/
def dailyStep (b : Buckets) (i : DailyInfo) : Buckets :=
  if i.status = "no_account" then b
  else
    let b := { b with has_valid := true }
    if i.status = "cookie_err" ∨ i.status = "Cookie Err" then
      { b with cookie_errs := insert i.env_name b.cookie_errs }
    else if i.status = "✅" ∨ i.status = "🟡" then
      { b with success_lines := b.success_lines ++
          [i.status ++ " " ++ i.env_name ++ " (" ++ i.uid ++ "): Day " ++ i.check_in_count] }
    else
      { b with error_lines := b.error_lines ++ ["❌ " ++ i.env_name ++ ": " ++ i.status] }

/-- Embeds the whole webhook-filter loop of src/daily.py for one game's
info list, starting from an accumulator `b` (whose cookie-error set is
the global one threaded across games). -/
def daily_filter (infos : List DailyInfo) (b : Buckets) : Buckets :=
  infos.foldl dailyStep b

/-- Embeds one iteration of the webhook-filter loop of `main` in
src/redeem.py (lines 172-198): skip `No Game`; collect cookie errors into
the global set; success lines for `✅`/`🟡`; error lines for `ERR` and for
the remote-failure glyphs; any other status adds nothing. -/
def redeemStep (b : Buckets) (r : RedeemInfo) : Buckets :=
  if r.status = "No Game" then b
  else if r.status = "Cookie Err" ∨ r.status = "cookie_err" then
    { b with cookie_errs := insert r.env_name b.cookie_errs }
  else if r.status = "✅" ∨ r.status = "🟡" then
    { b with success_lines := b.success_lines ++
        [r.status ++ " [" ++ r.code ++ "] " ++ r.env_name ++ " (" ++ r.uid ++ ")"] }
  else if r.status = "ERR" then
    { b with error_lines := b.error_lines ++ ["❌ " ++ r.env_name ++ ": Unknown Error"] }
  else if r.status = "☠" ∨ r.status = "⏱" ∨ r.status = "rules" ∨ r.status = "❌" then
    { b with error_lines := b.error_lines ++
        [r.status ++ " [" ++ r.code ++ "] " ++ r.env_name] }
  else b

/-- Embeds the whole webhook-filter loop of src/redeem.py for one game's
result list. -/
def redeem_filter (res : List RedeemInfo) (b : Buckets) : Buckets :=
  res.foldl redeemStep b

/-- Empty accumulator at the start of a per-game loop: fresh line lists
and `has_valid_info = False`, with the global cookie-error set `g`
carried in. -/
def freshBuckets (g : Finset String) : Buckets :=
  { success_lines := [], error_lines := [], cookie_errs := g, has_valid := false }

/-- Embeds the run-level loop of `main` in src/daily.py: per game, filter
its infos with fresh line lists while threading the global cookie-error
set; returns the per-game (name, success lines, error lines) triples and
the final global set. -/
def daily_run (games : List (String × List DailyInfo)) :
    List (String × List String × List String) × Finset String :=
  games.foldl
    (fun acc g =>
      let b := daily_filter g.2 (freshBuckets acc.2)
      (acc.1 ++ [(g.1, b.success_lines, b.error_lines)], b.cookie_errs))
    ([], ∅)

/-- Embeds the run-level loop of `main` in src/redeem.py: per game of the
codes map, filter its results with fresh line lists while threading the
same global cookie-error set. -/
def redeem_run (games : List (String × List RedeemInfo)) :
    List (String × List String × List String) × Finset String :=
  games.foldl
    (fun acc g =>
      let b := redeem_filter g.2 (freshBuckets acc.2)
      (acc.1 ++ [(g.1, b.success_lines, b.error_lines)], b.cookie_errs))
    ([], ∅)

/-- Embeds the final cookie-error alert of both mains: the sorted account
labels of the global set, as joined into the single alert line
`❌ Invalid Cookies (n): name1, name2, ...`. -/
def alert_names (g : Finset String) : List String :=
  g.sort (· ≤ ·)

/-- Embeds the alert line itself (sent only when the set is non-empty). -/
def alert_lines (g : Finset String) : List String :=
  if g = ∅ then []
  else ["❌ Invalid Cookies (" ++ toString g.card ++ "): "
          ++ String.intercalate ", " (alert_names g)]

/-! ## Concurrency model (the executors of both mains) -/

/-- State of one (account, work-item) task. -/
inductive TStat where
  | waiting
  | inflight
  | done
deriving Repr, DecidableEq

/-- Whether one task is currently in flight. -/
def isInflight : TStat → Bool
  | .inflight => true
  | _ => false

/-- Number of in-flight tasks in a state. -/
def inflightCount (σ : List TStat) : Nat :=
  σ.countP isInflight

/-- Transition relation of the redeem executor (src/redeem.py): every task
first acquires `semaphore = asyncio.Semaphore(settings.MAX_PARALLEL)`
before doing any work, so a waiting task may start only while fewer than
`cap` tasks are in flight; an in-flight task may finish at any time. -/
inductive SemStep (cap : Nat) : List TStat → List TStat → Prop
  | start (l r : List TStat) :
      inflightCount (l ++ TStat.waiting :: r) < cap →
      SemStep cap (l ++ TStat.waiting :: r) (l ++ TStat.inflight :: r)
  | finish (l r : List TStat) :
      SemStep cap (l ++ TStat.inflight :: r) (l ++ TStat.done :: r)

/-- Transition relation of the daily executor (src/daily.py lines
117-123): `asyncio.TaskGroup` starts every created task with no
admission gate, so a waiting task may start unconditionally. -/
inductive DailyStep : List TStat → List TStat → Prop
  | start (l r : List TStat) :
      DailyStep (l ++ TStat.waiting :: r) (l ++ TStat.inflight :: r)
  | finish (l r : List TStat) :
      DailyStep (l ++ TStat.inflight :: r) (l ++ TStat.done :: r)

/-- A single report line of 2000 characters, exercising the chunker's
over-long-line path. -/
def bigLine : String := String.mk (List.replicate 2000 'a')

/-! ## Helper lemmas -/

/-- Dropping all but one element of a non-empty list leaves its last
element. -/
theorem drop_length_sub_one {α : Type} (l : List α) (h : l ≠ []) :
    l.drop (l.length - 1) = [l.getLast h] := by
  induction l with
  | nil => simp at h
  | cons a t ih =>
    cases t with
    | nil => simp
    | cons b u => simpa using ih (by simp)

end HoyoDaily

namespace HoyoDaily

/-! ## Claim theorems -/

/-- C9: for every uid whose string form has length at least 6,
`censor_uid` returns a string of the same length, made of the first
`len - 6` characters, then five `■` characters, then the last character;
shorter string forms are returned unchanged. -/
theorem c9_censor_uid_shape (s : String) :
    (6 ≤ s.length →
      (censor_uid s).length = s.length ∧
      ∃ h : s.data ≠ [],
        (censor_uid s).data =
          s.data.take (s.length - 6) ++ List.replicate 5 '■' ++ [s.data.getLast h]) ∧
    (s.length < 6 → censor_uid s = s) := by
  constructor
  · intro h6
    have hne : s.data ≠ [] := by
      intro hnil
      rw [show s.length = s.data.length from rfl, hnil] at h6
      simp at h6
    have hlen : s.length = s.data.length := rfl
    constructor
    · rw [censor_uid, if_pos h6, String.length_mk]
      simp only [List.length_append, List.length_take, List.length_cons,
        List.length_drop]
      rw [hlen] at h6 ⊢
      omega
    · refine ⟨hne, ?_⟩
      rw [censor_uid, if_pos h6]
      rw [drop_length_sub_one s.data hne]
      have hrep : List.replicate 5 '■' = ['■', '■', '■', '■', '■'] := rfl
      rw [hrep]
      simp [List.append_assoc]
  · intro hlt
    rw [censor_uid, if_neg (by omega)]

/-- Witness for C9 at the concrete uid string `"123456789"`. -/
theorem c9_witness :
    (censor_uid "123456789").length = ("123456789" : String).length :=
  ((c9_censor_uid_shape "123456789").1 (by decide)).1

/-- Counts sleeps of one uniform per-code tail. -/
theorem countSleeps_aux (codes : List String) (tail : List PGEvent) :
    countSleeps ((codes.map fun code => PGEvent.batch code :: tail).flatten) =
      codes.length * countSleeps tail := by
  induction codes with
  | nil => simp [countSleeps]
  | cons c cs ih =>
    simp only [List.map_cons, List.flatten_cons, countSleeps, List.countP_cons,
      List.countP_append, List.length_cons] at ih ⊢
    rw [ih]
    ring_nf
    simp [Nat.add_mul]

/-- C3 (amended): the `process_game` loop of src/redeem.py paces with the
fixed 5-second delay after every work item whenever a game has more than
one work item — `n` delays in total, including one after the final work
item — and performs no delay at all when the game has at most one work
item. -/
theorem c3_pacing_delays (codes : List String) :
    countSleeps (process_game_events codes) =
      if codes.length ≤ 1 then 0 else codes.length := by
  by_cases h : 1 < codes.length
  · simp only [process_game_events, if_pos h]
    rw [countSleeps_aux codes [PGEvent.sleep 5]]
    have h1 : countSleeps [PGEvent.sleep 5] = 1 := rfl
    rw [h1, if_neg (by omega), Nat.mul_one]
  · simp only [process_game_events, if_neg h]
    rw [countSleeps_aux codes []]
    have h0 : countSleeps ([] : List PGEvent) = 0 := rfl
    rw [h0, if_pos (by omega), Nat.mul_zero]

/-- Counterexample to C3 as stated: with the two work items `["A", "B"]`
the loop performs 2 delays, not `n - 1 = 1`, and the trace ends with a
delay after the final work item. -/
theorem c3_counterexample :
    ¬ (countSleeps (process_game_events ["A", "B"]) = ["A", "B"].length - 1) ∧
    (process_game_events ["A", "B"]).getLast? = some (PGEvent.sleep 5) := by
  decide

/-- C8: appending the same code list to the ledger twice leaves the set
returned by `get_used_codes` identical to appending it once, for every
game key queried afterwards. -/
theorem c8_record_idempotent (files : LedgerFiles) (k : String)
    (cs : List String) (query : String) :
    get_used_codes (update_used_codes (update_used_codes files k cs) k cs) query =
      get_used_codes (update_used_codes files k cs) query := by
  unfold get_used_codes update_used_codes
  cases h : GAME_MAP.find? (fun p => p.2 == k) with
  | none => rfl
  | some p =>
    cases hq : GAME_MAP.find? (fun p => p.2 == query) with
    | none => rfl
    | some q =>
      by_cases hpq : q.1 = p.1
      · simp only [hpq, eq_self_iff_true, if_true]
        simp [List.toFinset_append, Finset.union_assoc]
      · simp only [if_neg hpq]

/-- C4 (amended): among codes not explicitly supplied on the command
line, in `--auto` mode a code recorded in the ledger is excluded from the
work-item set unless `--force` is given; with `--force` every code of the
active feed is included regardless of the ledger; outside `--auto` mode
only explicit codes are ever included. -/
theorem c4_dedup_force (args : RedeemArgs) (active : GKey → List String)
    (ledger : GKey → Finset String) (k : GKey) (code : String)
    (hexp : code ∉ args.explicitCodes k) :
    (args.auto = true → args.force = false → code ∈ ledger k →
      code ∉ build_codes args active ledger k) ∧
    (args.auto = true → args.force = true →
      code ∈ active k → code ∈ build_codes args active ledger k) ∧
    (args.auto = false → code ∉ build_codes args active ledger k) := by
  refine ⟨?_, ?_, ?_⟩
  · intro ha hf hl hmem
    simp only [build_codes, ha, hf, if_true, Bool.false_eq_true, if_false,
      Finset.mem_union, List.mem_toFinset, Finset.mem_sdiff] at hmem
    rcases hmem with h1 | ⟨_, h2⟩
    · exact hexp h1
    · exact h2 hl
  · intro ha hf hact
    simp only [build_codes, ha, hf, if_true, Finset.mem_union, List.mem_toFinset,
      Finset.sdiff_empty]
    exact Or.inr hact
  · intro ha hmem
    simp only [build_codes, ha, Bool.false_eq_true, if_false,
      List.mem_toFinset] at hmem
    exact hexp hmem

/-- Witness for C4 (amended) at concrete inputs: the ledger code `Y` from
the active feed is excluded without force and included with force. -/
theorem c4_witness :
    "Y" ∉ build_codes { auto := true } (fun _ => ["Y"]) (fun _ => {"Y"}) GKey.gi ∧
    "Y" ∈ build_codes { auto := true, force := true }
      (fun _ => ["Y"]) (fun _ => {"Y"}) GKey.gi :=
  ⟨(c4_dedup_force { auto := true } (fun _ => ["Y"]) (fun _ => {"Y"}) GKey.gi "Y"
      (by decide)).1 rfl rfl (by decide),
   ((c4_dedup_force { auto := true, force := true } (fun _ => ["Y"]) (fun _ => {"Y"})
      GKey.gi "Y" (by decide)).2).1 rfl rfl (by decide)⟩

/-- Counterexample to C4 as stated: the code `X` is recorded in the
ledger for `gi` and `force` is false, yet an explicit `-gi X` argument
puts it into the run's work-item set — the ledger filter applies only to
auto-fetched codes. -/
theorem c4_counterexample :
    "X" ∈ build_codes { auto := true, gi := ["X"] } (fun _ => [])
      (fun _ => {"X"}) GKey.gi := by
  decide

/-- Every status string `redeem_process` can possibly return. -/
theorem redeem_status_mem (env : RedeemEnv) (cookie : CookieInfo) (game : Game)
    (code : String) :
    (redeem_process env cookie game code).status ∈
      (["Cookie Err", "ERR", "No Game", "✅", "🟡", "☠", "⏱", "❌"] : List String) := by
  rcases env with ⟨cok, ar, rr⟩
  cases cok
  · simp [redeem_process]
  · cases ar with
    | exn => simp [redeem_process]
    | ok accs =>
      cases hf : accs.find? (fun a => a.game == game) with
      | none => simp [redeem_process, hf]
      | some t => cases rr <;> simp [redeem_process, hf]

/-- Every status string `DailyClaimer.claim` can possibly return. -/
theorem claim_status_mem (env : DailyEnv) (cache : List Reward)
    (cookie : CookieInfo) (game : Game) :
    (DailyClaimer.claim env cache cookie game).status ∈
      (["cookie_err", "no_account", "ERR", "✅", "🟡", "❌"] : List String) := by
  unfold DailyClaimer.claim
  repeat' split
  all_goals simp

/-- Outcome count of `process_game` is work items times accounts. -/
theorem process_game_length (env : String → CookieInfo → RedeemEnv)
    (cookies : List CookieInfo) (game : Game) (codes : List String) :
    (process_game env cookies game codes).length =
      codes.length * cookies.length := by
  simp only [process_game, List.length_flatten, List.map_map, Function.comp_def,
    List.length_map, List.map_const', List.sum_replicate, smul_eq_mul]

/-- C1: every (account, work-item) pair yields exactly one outcome record
— `process_game` returns `codes.length * cookies.length` outcomes and the
daily task list one per cookie — and no fault escapes a single task:
under every environment (every combination of remote-call results and
exceptions) the per-pair task is a total function into outcome records
whose status belongs to the closed status set of its script. -/
theorem c1_one_outcome_per_pair :
    (∀ env cookies game codes, (process_game env cookies game codes).length =
        codes.length * cookies.length) ∧
    (∀ env cache cookies game,
        (daily_game_results env cache cookies game).length = cookies.length) ∧
    (∀ env cookie game code, (redeem_process env cookie game code).status ∈
        (["Cookie Err", "ERR", "No Game", "✅", "🟡", "☠", "⏱", "❌"] : List String)) ∧
    (∀ env cache cookie game, (DailyClaimer.claim env cache cookie game).status ∈
        (["cookie_err", "no_account", "ERR", "✅", "🟡", "❌"] : List String)) :=
  ⟨process_game_length,
   fun env cache cookies game => by simp [daily_game_results],
   redeem_status_mem, claim_status_mem⟩

/-- Dropping the `no_account` rows does not change the daily filter
result at all. -/
theorem daily_filter_no_account (infos : List DailyInfo) (b : Buckets) :
    daily_filter (infos.filter fun i => !(i.status == "no_account")) b =
      daily_filter infos b := by
  induction infos generalizing b with
  | nil => rfl
  | cons i t ih =>
    simp only [daily_filter, List.foldl_cons] at ih ⊢
    by_cases h : i.status = "no_account"
    · rw [List.filter_cons_of_neg (by simp [h])]
      rw [show dailyStep b i = b from by simp [dailyStep, h]]
      exact ih b
    · rw [List.filter_cons_of_pos (by simp [h]), List.foldl_cons]
      exact ih (dailyStep b i)

/-- Dropping the `No Game` rows does not change the redeem filter result
at all. -/
theorem redeem_filter_no_game (res : List RedeemInfo) (b : Buckets) :
    redeem_filter (res.filter fun r => !(r.status == "No Game")) b =
      redeem_filter res b := by
  induction res generalizing b with
  | nil => rfl
  | cons r t ih =>
    simp only [redeem_filter, List.foldl_cons] at ih ⊢
    by_cases h : r.status = "No Game"
    · rw [List.filter_cons_of_neg (by simp [h])]
      rw [show redeemStep b r = b from by simp [redeemStep, h]]
      exact ih b
    · rw [List.filter_cons_of_pos (by simp [h]), List.foldl_cons]
      exact ih (redeemStep b r)

/-- C5: the no-account-for-game outcomes (`no_account` in the daily
script, `No Game` in the redeem script) contribute nothing to any webhook
output: removing them from the input leaves the success lines, the error
lines and the cookie-error set of the filter loop unchanged, for every
input list and every starting accumulator. -/
theorem c5_no_account_suppressed :
    (∀ infos b, daily_filter (infos.filter fun i => !(i.status == "no_account")) b =
        daily_filter infos b) ∧
    (∀ res b, redeem_filter (res.filter fun r => !(r.status == "No Game")) b =
        redeem_filter res b) :=
  ⟨daily_filter_no_account, redeem_filter_no_game⟩

/-- Bound of the chunker loop: when every remaining line is at most 1896
characters and the buffer is at most 1901, every emitted message is at
most 1904 characters. -/
theorem chunkLoop_bound (lines : List String) :
    ∀ cur : String, (∀ l ∈ lines, l.length ≤ 1896) → cur.length ≤ 1901 →
      ∀ m ∈ chunkLoop lines cur, m.length ≤ 1904 := by
  induction lines with
  | nil =>
    intro cur _ hc m hm
    simp only [chunkLoop] at hm
    by_cases hcond : 4 < cur.length
    · rw [if_pos hcond] at hm
      simp only [List.mem_singleton] at hm
      subst hm
      rw [String.length_append]
      have h3 : ("```" : String).length = 3 := rfl
      omega
    · rw [if_neg hcond] at hm
      simp at hm
  | cons line rest ih =>
    intro cur hl hc m hm
    have hline : line.length ≤ 1896 := hl line (List.mem_cons_self _ _)
    have hrest : ∀ l ∈ rest, l.length ≤ 1896 :=
      fun l h => hl l (List.mem_cons_of_mem _ h)
    simp only [chunkLoop] at hm
    by_cases hcond : 1900 < cur.length + line.length
    · rw [if_pos hcond] at hm
      rcases List.mem_cons.mp hm with hm1 | hm2
      · subst hm1
        rw [String.length_append]
        have h3 : ("```" : String).length = 3 := rfl
        omega
      · refine ih _ hrest ?_ m hm2
        rw [String.length_append, String.length_append]
        have h4 : ("```\n" : String).length = 4 := rfl
        have h1 : ("\n" : String).length = 1 := rfl
        omega
    · rw [if_neg hcond] at hm
      refine ih _ hrest ?_ m hm
      rw [String.length_append, String.length_append]
      have h1 : ("\n" : String).length = 1 := rfl
      omega

/-- C7 (amended): every message the chunker emits has length at most 1904
characters — `MAX_LENGTH = 1900` plus the trailing newline and the
3-character closing fence — provided no single input line is longer than
1896 characters; a longer line is carried whole into one message of
length `line + 8`, with no truncation. -/
theorem c7_chunk_bound (lines : List String)
    (hl : ∀ l ∈ lines, l.length ≤ 1896) :
    ∀ m ∈ send_chunked_webhook lines, m.length ≤ 1904 :=
  chunkLoop_bound lines "```\n" hl (by decide)

/-- Witness for C7 (amended) at the concrete input `["abc"]`. -/
theorem c7_witness : ("```\nabc\n```" : String).length ≤ 1904 :=
  c7_chunk_bound ["abc"] (by decide) "```\nabc\n```" (by decide)

/-- Length of the 2000-character line `bigLine`. -/
theorem bigLine_length : bigLine.length = 2000 := by
  rw [bigLine, String.length_mk, List.length_replicate]

/-- Counterexample to C7 as stated: for the single 2000-character input
line, the chunker emits a message of 2008 characters, far above the
~1900-character bound (1900 plus the 7 fence-delimiter characters plus a
newline is at most 1908, and the claim asserts the bound for exactly this
kind of input). -/
theorem c7_counterexample :
    ("```\n" ++ bigLine ++ "\n") ++ "```" ∈ send_chunked_webhook [bigLine] ∧
    1907 < (("```\n" ++ bigLine ++ "\n") ++ "```").length := by
  constructor
  · simp [send_chunked_webhook, chunkLoop, String.length_append, bigLine_length]
    exact Or.inr (by decide)
  · simp [String.length_append, bigLine_length]
    decide

/-- In-flight count distributes over list append. -/
theorem inflightCount_append (l r : List TStat) :
    inflightCount (l ++ r) = inflightCount l + inflightCount r :=
  List.countP_append _ _ _

/-- Invariant of the semaphore-gated executor: every state reachable from
the all-waiting initial state has at most `cap` tasks in flight. -/
theorem sem_inflight_le (cap n : Nat) (σ : List TStat)
    (h : Relation.ReflTransGen (SemStep cap) (List.replicate n TStat.waiting) σ) :
    inflightCount σ ≤ cap := by
  induction h with
  | refl => simp [inflightCount, List.countP_replicate, isInflight]
  | tail hab hstep ih =>
    cases hstep with
    | start l r hlt =>
      simp [inflightCount, List.countP_append, List.countP_cons,
        isInflight] at ih hlt ⊢
      omega
    | finish l r =>
      simp [inflightCount, List.countP_append, List.countP_cons,
        isInflight] at ih ⊢
      omega

/-- Under the ungated daily executor, every waiting task can start: from
`k` in-flight plus `m` waiting tasks, the state with all `k + m` tasks in
flight is reachable. -/
theorem daily_all_start (m : Nat) :
    ∀ k : Nat, Relation.ReflTransGen DailyStep
      (List.replicate k TStat.inflight ++ List.replicate m TStat.waiting)
      (List.replicate (k + m) TStat.inflight) := by
  induction m with
  | zero =>
    intro k
    simpa using Relation.ReflTransGen.refl
  | succ m ih =>
    intro k
    have h1 : List.replicate (m + 1) TStat.waiting
        = TStat.waiting :: List.replicate m TStat.waiting := rfl
    rw [h1]
    refine Relation.ReflTransGen.head (DailyStep.start _ _) ?_
    have h2 : List.replicate k TStat.inflight
          ++ TStat.inflight :: List.replicate m TStat.waiting
        = List.replicate (k + 1) TStat.inflight
          ++ List.replicate m TStat.waiting := by
      rw [List.append_cons, ← List.replicate_succ']
    rw [h2]
    have h3 := ih (k + 1)
    have h4 : k + 1 + m = k + (m + 1) := by omega
    rw [h4] at h3
    exact h3

/-- C2 (amended): the concurrency cap holds for the redeem script — every
state of the semaphore-gated executor reachable from its initial state
keeps at most `cap` (account, work-item) operations in flight — but not
for the daily script, whose TaskGroup has no admission gate: with 11
tasks (more accounts than the default `MAX_PARALLEL = 10`) the state with
all 11 operations simultaneously in flight is reachable. -/
theorem c2_concurrency_cap :
    (∀ cap n σ,
        Relation.ReflTransGen (SemStep cap) (List.replicate n TStat.waiting) σ →
        inflightCount σ ≤ cap) ∧
    (Relation.ReflTransGen DailyStep (List.replicate 11 TStat.waiting)
        (List.replicate 11 TStat.inflight) ∧
      10 < inflightCount (List.replicate 11 TStat.inflight)) :=
  ⟨fun cap n σ h => sem_inflight_le cap n σ h,
   by simpa using daily_all_start 11 0, by decide⟩

/-- Witness for C2 (amended): the invariant applied to a concrete
reachable state of a capacity-1 executor over two tasks. -/
theorem c2_witness : inflightCount [TStat.inflight, TStat.waiting] ≤ 1 :=
  c2_concurrency_cap.1 1 2 [TStat.inflight, TStat.waiting]
    (Relation.ReflTransGen.single
      (show SemStep 1 (List.replicate 2 TStat.waiting)
          [TStat.inflight, TStat.waiting] from
        SemStep.start [] [TStat.waiting] (by decide)))

/-- Counterexample to C2 as stated: the daily entry script does not obey
the configured `max_parallel` bound — starting from 11 waiting tasks the
ungated TaskGroup reaches a state with 11 > 10 operations in flight. -/
theorem c2_counterexample :
    Relation.ReflTransGen DailyStep (List.replicate 11 TStat.waiting)
      (List.replicate 11 TStat.inflight) ∧
    10 < inflightCount (List.replicate 11 TStat.inflight) :=
  ⟨by simpa using daily_all_start 11 0, by decide⟩

/-- Effect of one daily filter iteration on the cookie-error set. -/
theorem dailyStep_cookie_errs (b : Buckets) (i : DailyInfo) :
    (dailyStep b i).cookie_errs =
      if i.status = "cookie_err" ∨ i.status = "Cookie Err"
      then insert i.env_name b.cookie_errs else b.cookie_errs := by
  unfold dailyStep
  split_ifs <;> first | rfl | simp_all

/-- Effect of one redeem filter iteration on the cookie-error set. -/
theorem redeemStep_cookie_errs (b : Buckets) (r : RedeemInfo) :
    (redeemStep b r).cookie_errs =
      if r.status = "Cookie Err" ∨ r.status = "cookie_err"
      then insert r.env_name b.cookie_errs else b.cookie_errs := by
  unfold redeemStep
  split_ifs <;> first | rfl | simp_all

/-- Membership in the cookie-error set after one game's daily filter. -/
theorem daily_filter_cookie_mem (infos : List DailyInfo) :
    ∀ (b : Buckets) (x : String),
      x ∈ (daily_filter infos b).cookie_errs ↔
        x ∈ b.cookie_errs ∨ ∃ i ∈ infos,
          (i.status = "cookie_err" ∨ i.status = "Cookie Err") ∧ x = i.env_name := by
  induction infos with
  | nil => intro b x; simp [daily_filter]
  | cons i t ih =>
    intro b x
    simp only [daily_filter, List.foldl_cons] at ih ⊢
    rw [ih (dailyStep b i) x, dailyStep_cookie_errs]
    by_cases h : i.status = "cookie_err" ∨ i.status = "Cookie Err"
    · rw [if_pos h]
      simp only [Finset.mem_insert, List.mem_cons, exists_eq_or_imp,
        and_iff_right h]
      rw [or_assoc]
      exact or_left_comm
    · rw [if_neg h]
      have hnot : ¬ ((i.status = "cookie_err" ∨ i.status = "Cookie Err")
          ∧ x = i.env_name) := fun hc => h hc.1
      simp only [List.mem_cons, exists_eq_or_imp, hnot, false_or]

/-- Membership in the cookie-error set after one game's redeem filter. -/
theorem redeem_filter_cookie_mem (res : List RedeemInfo) :
    ∀ (b : Buckets) (x : String),
      x ∈ (redeem_filter res b).cookie_errs ↔
        x ∈ b.cookie_errs ∨ ∃ r ∈ res,
          (r.status = "Cookie Err" ∨ r.status = "cookie_err") ∧ x = r.env_name := by
  induction res with
  | nil => intro b x; simp [redeem_filter]
  | cons r t ih =>
    intro b x
    simp only [redeem_filter, List.foldl_cons] at ih ⊢
    rw [ih (redeemStep b r) x, redeemStep_cookie_errs]
    by_cases h : r.status = "Cookie Err" ∨ r.status = "cookie_err"
    · rw [if_pos h]
      simp only [Finset.mem_insert, List.mem_cons, exists_eq_or_imp,
        and_iff_right h]
      rw [or_assoc]
      exact or_left_comm
    · rw [if_neg h]
      have hnot : ¬ ((r.status = "Cookie Err" ∨ r.status = "cookie_err")
          ∧ x = r.env_name) := fun hc => h hc.1
      simp only [List.mem_cons, exists_eq_or_imp, hnot, false_or]

/-- Membership in the global cookie-error set accumulated over the whole
daily run, for any starting accumulator. -/
theorem daily_run_foldl_cookie_mem (games : List (String × List DailyInfo)) :
    ∀ (acc : List (String × List String × List String)) (s : Finset String)
      (x : String),
      x ∈ (games.foldl
        (fun acc g =>
          let b := daily_filter g.2 (freshBuckets acc.2)
          (acc.1 ++ [(g.1, b.success_lines, b.error_lines)], b.cookie_errs))
        (acc, s)).2 ↔
      x ∈ s ∨ ∃ g ∈ games, ∃ i ∈ g.2,
        (i.status = "cookie_err" ∨ i.status = "Cookie Err") ∧ x = i.env_name := by
  induction games with
  | nil => intro acc s x; simp
  | cons g t ih =>
    intro acc s x
    simp only [List.foldl_cons, List.mem_cons, exists_eq_or_imp]
    rw [ih]
    rw [daily_filter_cookie_mem g.2 (freshBuckets s) x]
    have hfresh : (freshBuckets s).cookie_errs = s := rfl
    rw [hfresh]
    exact or_assoc

/-- Membership in the global cookie-error set accumulated over the whole
redeem run, for any starting accumulator. -/
theorem redeem_run_foldl_cookie_mem (games : List (String × List RedeemInfo)) :
    ∀ (acc : List (String × List String × List String)) (s : Finset String)
      (x : String),
      x ∈ (games.foldl
        (fun acc g =>
          let b := redeem_filter g.2 (freshBuckets acc.2)
          (acc.1 ++ [(g.1, b.success_lines, b.error_lines)], b.cookie_errs))
        (acc, s)).2 ↔
      x ∈ s ∨ ∃ g ∈ games, ∃ r ∈ g.2,
        (r.status = "Cookie Err" ∨ r.status = "cookie_err") ∧ x = r.env_name := by
  induction games with
  | nil => intro acc s x; simp
  | cons g t ih =>
    intro acc s x
    simp only [List.foldl_cons, List.mem_cons, exists_eq_or_imp]
    rw [ih]
    rw [redeem_filter_cookie_mem g.2 (freshBuckets s) x]
    have hfresh : (freshBuckets s).cookie_errs = s := rfl
    rw [hfresh]
    exact or_assoc

/-- Each account label occurs in the sorted alert name list exactly once
when it is in the set and never otherwise. -/
theorem alert_names_count (g : Finset String) (x : String) :
    (alert_names g).count x = if x ∈ g then 1 else 0 := by
  by_cases h : x ∈ g
  · rw [if_pos h]
    exact List.count_eq_one_of_mem (Finset.sort_nodup _ g)
      ((Finset.mem_sort _).mpr h)
  · rw [if_neg h]
    exact List.count_eq_zero_of_not_mem (fun hc => h ((Finset.mem_sort _).mp hc))

/-- One daily filter iteration builds its line lists from the line lists
of the accumulator only, in the same way for accumulators that agree on
them. -/
theorem dailyStep_lines_congr (b b' : Buckets) (i : DailyInfo)
    (hs : b.success_lines = b'.success_lines)
    (he : b.error_lines = b'.error_lines) :
    (dailyStep b i).success_lines = (dailyStep b' i).success_lines ∧
    (dailyStep b i).error_lines = (dailyStep b' i).error_lines := by
  unfold dailyStep
  split_ifs <;> simp [hs, he]

/-- One redeem filter iteration builds its line lists from the line lists
of the accumulator only, in the same way for accumulators that agree on
them. -/
theorem redeemStep_lines_congr (b b' : Buckets) (r : RedeemInfo)
    (hs : b.success_lines = b'.success_lines)
    (he : b.error_lines = b'.error_lines) :
    (redeemStep b r).success_lines = (redeemStep b' r).success_lines ∧
    (redeemStep b r).error_lines = (redeemStep b' r).error_lines := by
  unfold redeemStep
  split_ifs <;> simp [hs, he]

/-- A cookie-error row adds nothing to the daily line lists. -/
theorem dailyStep_cookie_lines (b : Buckets) (i : DailyInfo)
    (h : i.status = "cookie_err" ∨ i.status = "Cookie Err") :
    (dailyStep b i).success_lines = b.success_lines ∧
    (dailyStep b i).error_lines = b.error_lines := by
  unfold dailyStep
  split_ifs <;> simp_all

/-- A cookie-error row adds nothing to the redeem line lists. -/
theorem redeemStep_cookie_lines (b : Buckets) (r : RedeemInfo)
    (h : r.status = "Cookie Err" ∨ r.status = "cookie_err") :
    (redeemStep b r).success_lines = b.success_lines ∧
    (redeemStep b r).error_lines = b.error_lines := by
  unfold redeemStep
  split_ifs <;> simp_all

/-- Removing the cookie-error rows leaves the daily success and error
lines unchanged (for accumulators agreeing on their line lists). -/
theorem daily_filter_lines_cookie (infos : List DailyInfo) :
    ∀ b b' : Buckets, b.success_lines = b'.success_lines →
      b.error_lines = b'.error_lines →
      (daily_filter (infos.filter fun i =>
          !(i.status == "cookie_err" || i.status == "Cookie Err")) b).success_lines =
        (daily_filter infos b').success_lines ∧
      (daily_filter (infos.filter fun i =>
          !(i.status == "cookie_err" || i.status == "Cookie Err")) b).error_lines =
        (daily_filter infos b').error_lines := by
  induction infos with
  | nil => intro b b' hs he; exact ⟨hs, he⟩
  | cons i t ih =>
    intro b b' hs he
    simp only [daily_filter, List.foldl_cons] at ih ⊢
    by_cases h : i.status = "cookie_err" ∨ i.status = "Cookie Err"
    · rw [List.filter_cons_of_neg (by rcases h with h | h <;> simp [h])]
      have hl := dailyStep_cookie_lines b' i h
      exact ih b (dailyStep b' i) (hs.trans hl.1.symm) (he.trans hl.2.symm)
    · rw [List.filter_cons_of_pos (by simp only [Bool.not_eq_eq_eq_not,
        Bool.not_true, Bool.or_eq_false_iff, beq_eq_false_iff_ne]; tauto),
        List.foldl_cons]
      have hl := dailyStep_lines_congr b b' i hs he
      exact ih (dailyStep b i) (dailyStep b' i) hl.1 hl.2

/-- Removing the cookie-error rows leaves the redeem success and error
lines unchanged (for accumulators agreeing on their line lists). -/
theorem redeem_filter_lines_cookie (res : List RedeemInfo) :
    ∀ b b' : Buckets, b.success_lines = b'.success_lines →
      b.error_lines = b'.error_lines →
      (redeem_filter (res.filter fun r =>
          !(r.status == "Cookie Err" || r.status == "cookie_err")) b).success_lines =
        (redeem_filter res b').success_lines ∧
      (redeem_filter (res.filter fun r =>
          !(r.status == "Cookie Err" || r.status == "cookie_err")) b).error_lines =
        (redeem_filter res b').error_lines := by
  induction res with
  | nil => intro b b' hs he; exact ⟨hs, he⟩
  | cons r t ih =>
    intro b b' hs he
    simp only [redeem_filter, List.foldl_cons] at ih ⊢
    by_cases h : r.status = "Cookie Err" ∨ r.status = "cookie_err"
    · rw [List.filter_cons_of_neg (by rcases h with h | h <;> simp [h])]
      have hl := redeemStep_cookie_lines b' r h
      exact ih b (redeemStep b' r) (hs.trans hl.1.symm) (he.trans hl.2.symm)
    · rw [List.filter_cons_of_pos (by simp only [Bool.not_eq_eq_eq_not,
        Bool.not_true, Bool.or_eq_false_iff, beq_eq_false_iff_ne]; tauto),
        List.foldl_cons]
      have hl := redeemStep_lines_congr b b' r hs he
      exact ih (redeemStep b r) (redeemStep b' r) hl.1 hl.2

/-- C6: cookie errors of a whole run (daily and redeem alike) are
aggregated across all games into the single set keyed by account label —
a label is in the final set exactly when some game produced a
cookie-error outcome for it, no matter for how many games — each label
appears exactly once in the final alert's sorted name list, and removing
the cookie-error rows changes no per-game success or error line. -/
theorem c6_cookie_error_single_alert :
    (∀ games x, x ∈ (daily_run games).2 ↔
        ∃ g ∈ games, ∃ i ∈ g.2,
          (i.status = "cookie_err" ∨ i.status = "Cookie Err") ∧ x = i.env_name) ∧
    (∀ games x, x ∈ (redeem_run games).2 ↔
        ∃ g ∈ games, ∃ r ∈ g.2,
          (r.status = "Cookie Err" ∨ r.status = "cookie_err") ∧ x = r.env_name) ∧
    (∀ g x, (alert_names g).count x = if x ∈ g then 1 else 0) ∧
    (∀ infos b,
      (daily_filter (infos.filter fun i =>
          !(i.status == "cookie_err" || i.status == "Cookie Err")) b).success_lines =
        (daily_filter infos b).success_lines ∧
      (daily_filter (infos.filter fun i =>
          !(i.status == "cookie_err" || i.status == "Cookie Err")) b).error_lines =
        (daily_filter infos b).error_lines) ∧
    (∀ res b,
      (redeem_filter (res.filter fun r =>
          !(r.status == "Cookie Err" || r.status == "cookie_err")) b).success_lines =
        (redeem_filter res b).success_lines ∧
      (redeem_filter (res.filter fun r =>
          !(r.status == "Cookie Err" || r.status == "cookie_err")) b).error_lines =
        (redeem_filter res b).error_lines) :=
  ⟨fun games x => by
      have h := daily_run_foldl_cookie_mem games [] ∅ x
      simpa [daily_run] using h,
   fun games x => by
      have h := redeem_run_foldl_cookie_mem games [] ∅ x
      simpa [redeem_run] using h,
   alert_names_count,
   fun infos b => daily_filter_lines_cookie infos b b rfl rfl,
   fun res b => redeem_filter_lines_cookie res b b rfl rfl⟩

/-- Every cookie the account fetch returns carries a non-empty account id
and a non-empty token inside its credential string. -/
theorem get_cookies_mem (data : List ApiItem) (c : CookieInfo)
    (hc : c ∈ get_cookies_from_api data) :
    ∃ a t, a ≠ "" ∧ t ≠ "" ∧
      c.cookies = "account_id_v2=" ++ a ++ "; cookie_token_v2=" ++ t := by
  rw [get_cookies_from_api, List.mem_mergeSort, List.mem_filterMap] at hc
  obtain ⟨o, ho, hoc⟩ := hc
  rw [List.mem_map] at ho
  obtain ⟨p, hp, hpo⟩ := ho
  subst hpo
  simp only [id] at hoc
  simp only [buildCookie] at hoc
  by_cases hcond : itemAccId p.2 = "" ∨ p.2.cookie_token.getD "" = ""
  · rw [if_pos hcond] at hoc
    cases hoc
  · rw [if_neg hcond] at hoc
    push_neg at hcond
    refine ⟨itemAccId p.2, p.2.cookie_token.getD "", hcond.1, hcond.2, ?_⟩
    cases hoc
    rfl

/-- The option returned for one item is filled exactly when neither field
is empty. -/
theorem buildCookie_isSome (idx : Nat) (it : ApiItem) :
    (buildCookie idx it).isSome =
      !(itemAccId it == "" || it.cookie_token.getD "" == "") := by
  simp only [buildCookie]
  by_cases h : itemAccId it = "" ∨ it.cookie_token.getD "" = ""
  · rw [if_pos h]
    rcases h with h | h <;> simp [h]
  · rw [if_neg h]
    push_neg at h
    simp [h.1, h.2]

/-- Survivor count of the fetch equals the number of complete items,
independent of the enumeration start. -/
theorem filterMap_buildCookie_length (data : List ApiItem) :
    ∀ n : Nat,
      (((data.enumFrom n).map fun p => buildCookie (p.1 + 1) p.2).filterMap id).length
        = (data.filter fun it =>
            !(itemAccId it == "" || it.cookie_token.getD "" == "")).length := by
  induction data with
  | nil => intro n; rfl
  | cons it t ih =>
    intro n
    simp only [List.enumFrom, List.map_cons]
    by_cases h : itemAccId it = "" ∨ it.cookie_token.getD "" = ""
    · have hb : buildCookie (n + 1) it = none := by
        simp only [buildCookie]
        rw [if_pos h]
      rw [List.filterMap_cons_none (by rw [hb]; rfl)]
      rw [List.filter_cons_of_neg (by
        have := buildCookie_isSome (n + 1) it
        rw [hb] at this
        simpa using this.symm)]
      exact ih (n + 1)
    · have hb : ∃ c, buildCookie (n + 1) it = some c := by
        simp only [buildCookie]
        rw [if_neg h]
        exact ⟨_, rfl⟩
      obtain ⟨c, hc⟩ := hb
      rw [List.filterMap_cons_some (by rw [hc]; rfl)]
      rw [List.filter_cons_of_pos (by
        have := buildCookie_isSome (n + 1) it
        rw [hc] at this
        simpa using this.symm)]
      simp only [List.length_cons, ih (n + 1)]

/-- C10: every account returned by the account-store fetch carries a
non-empty account id and a non-empty cookie token; an incomplete item is
skipped rather than aborting the fetch — the number of returned accounts
equals the number of complete items — and the returned accounts are
sorted by their generated `env_name` label. -/
theorem c10_account_fetch (data : List ApiItem) :
    (∀ c ∈ get_cookies_from_api data, ∃ a t, a ≠ "" ∧ t ≠ "" ∧
        c.cookies = "account_id_v2=" ++ a ++ "; cookie_token_v2=" ++ t) ∧
    (get_cookies_from_api data).length =
      (data.filter fun it =>
        !(itemAccId it == "" || it.cookie_token.getD "" == "")).length ∧
    List.Pairwise (fun a b => a.env_name ≤ b.env_name)
      (get_cookies_from_api data) := by
  refine ⟨fun c hc => get_cookies_mem data c hc, ?_, ?_⟩
  · rw [get_cookies_from_api, List.length_mergeSort]
    have h := filterMap_buildCookie_length data 0
    exact h
  · have h := @List.sorted_mergeSort CookieInfo
      (fun a b : CookieInfo => decide (a.env_name ≤ b.env_name))
      (fun a b c hab hbc => by
        simp only [decide_eq_true_eq] at hab hbc ⊢
        exact le_trans hab hbc)
      (fun a b => by
        simp only [Bool.or_eq_true, decide_eq_true_eq]
        exact le_total a.env_name b.env_name)
      ((data.enum.map fun p => buildCookie (p.1 + 1) p.2).filterMap id)
    rw [get_cookies_from_api]
    exact h.imp (fun hab => by simpa using hab)

/-- Witness for C10 at a concrete two-item response in which the second
item misses its account id. -/
theorem c10_witness :
    ∃ a t, a ≠ "" ∧ t ≠ "" ∧
      ({ env_name := "ACC1_B", cookies := "account_id_v2=7; cookie_token_v2=tok" }
          : CookieInfo).cookies =
        "account_id_v2=" ++ a ++ "; cookie_token_v2=" ++ t :=
  (c10_account_fetch
      [{ name := some "b", account_id := some 7, cookie_token := some "tok" },
       { name := some "c", cookie_token := some "u" }]).1
    { env_name := "ACC1_B", cookies := "account_id_v2=7; cookie_token_v2=tok" }
    (by rw [get_cookies_from_api, List.mem_mergeSort]; decide)

end HoyoDaily
